import Mathlib

/-!
Shallow embedding of the CIFAR-10 training pipeline (`official/resnet/cifar10_main.py`):
record enumeration and decoding, the mode-parameterized input pipeline, the model
function (loss, learning-rate schedule, train-op dependency wiring) and the outer
train/eval driver loop.  Floating-point values are modelled exactly as rationals;
the transcendental TensorFlow kernels (softmax, softmax cross entropy, square root)
and the randomized training-only kernels (shuffle, random crop/flip) are taken as
parameters, since no verified property depends on their numeric output, only on
where and whether the pipeline invokes them.
-/

namespace Cifar10

/-! ### Constants (lines 29-35, 60-69 of cifar10_main.py) -/

def HEIGHT : ℕ := 32
def WIDTH : ℕ := 32
def DEPTH : ℕ := 3
def NUM_CLASSES : ℕ := 10
def NUM_DATA_BATCHES : ℕ := 5
def NUM_EXAMPLES_PER_EPOCH_FOR_TRAIN : ℕ := 10000 * NUM_DATA_BATCHES

/-- `_INITIAL_LEARNING_RATE = 0.1 * FLAGS.batch_size / 128` (line 62). -/
def _INITIAL_LEARNING_RATE (batch_size : ℕ) : ℚ := 1/10 * batch_size / 128

/-- `_MOMENTUM = 0.9` (line 63). -/
def _MOMENTUM : ℚ := 9/10

/-- `_WEIGHT_DECAY = 2e-4` (line 67). -/
def _WEIGHT_DECAY : ℚ := 2/10000

/-- `_BATCHES_PER_EPOCH = NUM_EXAMPLES_PER_EPOCH_FOR_TRAIN / FLAGS.batch_size`
(line 69, Python true division, modelled exactly as a rational). -/
def _BATCHES_PER_EPOCH (batch_size : ℕ) : ℚ :=
  (NUM_EXAMPLES_PER_EPOCH_FOR_TRAIN : ℚ) / batch_size

/-! ### Modes and errors

`tf.estimator.ModeKeys` are the strings `'train'`, `'eval'`, `'infer'`.  The error
vocabulary follows the spec: the failed `assert` on the data directory (line 82) is
`ConfigurationError`, the `raise ValueError` (line 93) is `ValueError`, and a
record-length mismatch in the record stream is `FormatError`. -/

namespace ModeKeys

def TRAIN : String := "train"
def EVAL : String := "eval"
def PREDICT : String := "infer"

end ModeKeys

inductive PipelineError where
  | ConfigurationError : PipelineError
  | ValueError : PipelineError
  | FormatError : PipelineError
deriving DecidableEq, Repr

/-! ### RecordSource: `filenames(mode)` (lines 78-93)

The filesystem is abstracted as the predicate `dirExists` on paths: the function
first asserts that `<data_dir>/cifar-10-batches-bin` exists and only then
dispatches on the mode, exactly as in the source. -/

/-- Embedding of `filenames(mode)` (lines 78-93): join the data root with
`cifar-10-batches-bin`, assert the directory exists (else `ConfigurationError`),
then return the five numbered training shards for TRAIN, the single test file for
EVAL, and raise `ValueError` for any other mode. -/
def filenames (mode : String) (data_dir : String) (dirExists : String → Bool) :
    Except PipelineError (List String) :=
  let dir := data_dir ++ "/cifar-10-batches-bin"
  if dirExists dir then
    if mode = ModeKeys.TRAIN then
      Except.ok ((List.range NUM_DATA_BATCHES).map
        (fun i => dir ++ "/data_batch_" ++ toString (i + 1) ++ ".bin"))
    else if mode = ModeKeys.EVAL then
      Except.ok [dir ++ "/test_batch.bin"]
    else
      Except.error PipelineError.ValueError
  else
    Except.error PipelineError.ConfigurationError

/-! ### TrainEvalDriver: the loop in `main` (lines 246-273)

Each iteration of `for cycle in range(FLAGS.train_steps // FLAGS.steps_per_eval)`
performs one bounded training run of `steps_per_eval` steps followed by one full
evaluation whose result is printed.  The driver is modelled by the trace of these
events. -/

/-! ### RecordDecoder: `datasetParser(value)` (lines 96-119)

A raw record is a list of unsigned byte values.  The decoded image is the tensor
`image[h][w][c]` obtained by reshaping the 3072 payload bytes to channel-major
`[DEPTH, HEIGHT, WIDTH]` and transposing with permutation `[1, 2, 0]` to
pixel-major `[HEIGHT, WIDTH, DEPTH]`; the label is the first byte, one-hot encoded
against `NUM_CLASSES`. -/

/-- A decoded image tensor of shape `[HEIGHT, WIDTH, DEPTH]`, float-valued. -/
abbrev CImage : Type := Fin HEIGHT → Fin WIDTH → Fin DEPTH → ℚ

/-- A one-hot label vector of length `NUM_CLASSES`. -/
abbrev OneHot : Type := Fin NUM_CLASSES → ℚ

/-- One decoded `(image, one_hot_label)` pair, the element type of the dataset
after the `datasetParser` map stage. -/
structure Sample where
  image : CImage
  label : OneHot

/-- Embedding of `datasetParser(value)` (lines 96-119): the first byte is the
label (`tf.one_hot(label, NUM_CLASSES)` puts a 1 exactly at index `label`, and is
all zeros when `label ≥ NUM_CLASSES`); byte `1 + (c*HEIGHT*WIDTH + h*WIDTH + w)`
of the record is pixel `image[h][w][c]`, i.e. the payload is read channel-major
(`reshape` to `[DEPTH, HEIGHT, WIDTH]`) and transposed by `[1, 2, 0]` to
`[HEIGHT, WIDTH, DEPTH]`, then cast to float. -/
def datasetParser (value : List ℕ) : Sample :=
  let label := value.getD 0 0
  { image := fun h w c =>
      ((value.getD (1 + (c.val * (HEIGHT * WIDTH) + h.val * WIDTH + w.val)) 0 : ℕ) : ℚ)
    label := fun k => if label = k.val then 1 else 0 }

/-- Channel-major serialization of one `(label, pixels)` pair into a raw record:
the byte layout of the CIFAR-10 binary format that `datasetParser` reads
(`pixels c h w` is the byte for channel `c`, row `h`, column `w`). -/
def encode_record (label : ℕ) (pixels : ℕ → ℕ → ℕ → ℕ) : List ℕ :=
  label :: (List.range (DEPTH * HEIGHT * WIDTH)).map
    (fun i => pixels (i / (HEIGHT * WIDTH)) (i % (HEIGHT * WIDTH) / WIDTH) (i % WIDTH))

/-! ### Fixed-length record streams (lines 72-75) -/

/-- Split a stream into consecutive chunks of `n` elements, the last chunk
possibly shorter (`n = 0` yields no chunks). -/
def chunkList (n : ℕ) (l : List α) : List (List α) :=
  match l with
  | [] => []
  | x :: xs =>
    if _h : n = 0 then []
    else (x :: xs).take n :: chunkList n ((x :: xs).drop n)
termination_by l.length
decreasing_by
  simp only [List.length_drop, List.length_cons]
  omega

/-- Modelled from the spec: the record stream of `record_dataset` (lines 72-75) is
produced by `tf.contrib.data.FixedLengthRecordDataset`, which is external library
code, not part of this repository.  Per the spec, a file whose byte length is not
an exact multiple of the fixed record size fails with `FormatError` — the trailing
short record is never silently skipped — and otherwise the full records are
yielded in file order. -/
def parse_fixed_length_records (record_bytes : ℕ) (file : List ℕ) :
    Except PipelineError (List (List ℕ)) :=
  if file.length % record_bytes = 0 then Except.ok (chunkList record_bytes file)
  else Except.error PipelineError.FormatError

/-- Embedding of `record_dataset(filenames)` (lines 72-75): each file is split
into fixed-length records of `record_bytes = HEIGHT * WIDTH * DEPTH + 1` bytes and
the per-file record streams are concatenated in order. -/
def record_dataset (files : List (List ℕ)) : Except PipelineError (List (List ℕ)) :=
  match files with
  | [] => Except.ok []
  | f :: fs => do
    let records ← parse_fixed_length_records (HEIGHT * WIDTH * DEPTH + 1) f
    let rest ← record_dataset fs
    pure (records ++ rest)

/-! ### The learning-rate schedule (lines 209-213) -/

/-- Signed 32-bit reinterpretation of the natural-number global step:
`tf.cast(global_step, tf.int32)` (line 213) wraps modulo `2^32` into
`[-2^31, 2^31)`. -/
def int32_cast (n : ℕ) : ℤ :=
  if n % 2 ^ 32 < 2 ^ 31 then ((n % 2 ^ 32 : ℕ) : ℤ)
  else ((n % 2 ^ 32 : ℕ) : ℤ) - 2 ^ 32

/-- Semantics of `tf.train.piecewise_constant(x, boundaries, values)`: `values[0]`
for `x ≤ boundaries[0]`, `values[i+1]` for `boundaries[i] < x ≤ boundaries[i+1]`,
and the last value once `x` is past the last boundary. -/
def piecewise_constant (x : ℤ) : List ℤ → List ℚ → ℚ
  | [], v :: _ => v
  | [], [] => 0
  | _ :: _, [] => 0
  | b :: bs, v :: vs => if x ≤ b then v else piecewise_constant x bs vs

/-- The schedule boundaries (line 210): `int(_BATCHES_PER_EPOCH * epoch)` for
epochs 100, 150, 200 (the product is nonnegative, so Python `int` truncation is
the floor). -/
def lr_boundaries (batch_size : ℕ) : List ℤ :=
  ([100, 150, 200] : List ℕ).map (fun epoch => ⌊_BATCHES_PER_EPOCH batch_size * epoch⌋)

/-- The schedule values (line 211): `_INITIAL_LEARNING_RATE * decay` for decays
1, 0.1, 0.01, 0.001. -/
def lr_values (batch_size : ℕ) : List ℚ :=
  ([1, 1/10, 1/100, 1/1000] : List ℚ).map
    (fun decay => _INITIAL_LEARNING_RATE batch_size * decay)

/-- The learning-rate schedule (lines 209-213) as a function of the batch size
and the global step. -/
def learning_rate (batch_size global_step : ℕ) : ℚ :=
  piecewise_constant (int32_cast global_step) (lr_boundaries batch_size)
    (lr_values batch_size)

/-! ### AugmentationStage and NormalizationStage (lines 122-133, 162-166) -/

/-- Embedding of `train_preprocess_fn(image, label)` (lines 122-133): the
pad-to-40×40, random-crop-back-to-32×32 and random-horizontal-flip pipeline acts
on the image only — modelled by the abstract randomized kernel `cropFlipK` — and
the label passes through untouched. -/
def train_preprocess_fn (cropFlipK : CImage → CImage) (s : Sample) : Sample :=
  { image := cropFlipK s.image, label := s.label }

/-- The element count of a `[HEIGHT, WIDTH, DEPTH]` image tensor. -/
def NUM_IMAGE_ELEMENTS : ℕ := HEIGHT * WIDTH * DEPTH

/-- Sum of a float-valued image tensor over all of its elements. -/
def imageSum (img : CImage) : ℚ :=
  ∑ h : Fin HEIGHT, ∑ w : Fin WIDTH, ∑ c : Fin DEPTH, img h w c

/-- Embedding of `tf.image.per_image_standardization` (line 164): subtract the
image's own mean and divide by `max(stddev, 1/sqrt(num_elements))` — the
numerically safe floor on the deviation.  The floating-point square root is the
kernel `sqrtK`, taken as a parameter. -/
def per_image_standardization (sqrtK : ℚ → ℚ) (img : CImage) : CImage :=
  let n : ℚ := NUM_IMAGE_ELEMENTS
  let mean := imageSum img / n
  let variance := imageSum (fun h w c => (img h w c - mean) ^ 2) / n
  let adjusted_stddev := max (sqrtK variance) (1 / sqrtK n)
  fun h w c => (img h w c - mean) / adjusted_stddev

/-! ### BatchPipeline: `input_fn(mode, batch_size)` (lines 136-173)

The filesystem is abstracted as an `Env` giving directory existence and file
contents.  The randomized / infinite training-only combinators — `repeat`
(line 147), the random crop/flip (line 154) and `shuffle` (line 160) — are taken
as parameters: they are invoked exactly where the source invokes them, only in
training mode, and every verified property of the evaluation pipeline holds for
all instantiations of them. -/

structure Env where
  dirExists : String → Bool
  fileBytes : String → List ℕ

/-- Embedding of `input_fn(mode, batch_size)` (lines 136-173): enumerate files,
split them into fixed-length records, repeat indefinitely in training mode only,
map `datasetParser`, in training mode only apply the per-image random crop/flip
and draw from the shuffle buffer, standardize every image, and group into batches
of up to `batch_size` consecutive samples (the last batch may be shorter). -/
def input_fn (mode : String) (batch_size : ℕ) (data_dir : String) (env : Env)
    (sqrtK : ℚ → ℚ) (repeatK : List (List ℕ) → List (List ℕ))
    (cropFlipK : CImage → CImage) (shuffleK : List Sample → List Sample) :
    Except PipelineError (List (List Sample)) := do
  let paths ← filenames mode data_dir env.dirExists
  let dataset ← record_dataset (paths.map env.fileBytes)
  let dataset := if mode = ModeKeys.TRAIN then repeatK dataset else dataset
  let dataset := dataset.map datasetParser
  let dataset :=
    if mode = ModeKeys.TRAIN then
      shuffleK (dataset.map (train_preprocess_fn cropFlipK))
    else dataset
  let dataset := dataset.map
    (fun s => { s with image := per_image_standardization sqrtK s.image })
  pure (chunkList batch_size dataset)

/-! ### ModelFunction: `cifar10_model_fn(features, labels, mode)` (lines 176-243) -/

/-- First index attaining the maximum element (`tf.argmax` along the class
axis); helper carrying the best index, best value and current index. -/
def argmaxAux (bi : ℕ) (bv : ℚ) (i : ℕ) : List ℚ → ℕ
  | [] => bi
  | x :: xs => if bv < x then argmaxAux i x (i + 1) xs else argmaxAux bi bv (i + 1) xs

/-- `tf.argmax` on one row of logits: the first index attaining the maximum. -/
def argmaxIdx : List ℚ → ℕ
  | [] => 0
  | x :: xs => argmaxAux 0 x 1 xs

/-- `tf.nn.l2_loss(v) = sum(v ** 2) / 2` — half the squared L2 norm (the
TF-documented semantics of the kernel applied to every trainable variable at
line 204). -/
def l2_loss (v : List ℚ) : ℚ := (v.map (fun x => x ^ 2)).sum / 2

/-- Batch-level value of `tf.metrics.accuracy` (lines 230-231): the fraction of
rows whose predicted class equals the label's class. -/
def accuracy_metric (label_classes predicted : List ℕ) : ℚ :=
  let pairs := label_classes.zip predicted
  ((pairs.filter (fun p => p.1 = p.2)).length : ℚ) / (pairs.length : ℚ)

/-- The prediction dictionary (lines 186-189). -/
structure Predictions where
  classes : List ℕ
  probabilities : List (List ℚ)
deriving DecidableEq

/-- The training operation built at lines 206-226: it carries the schedule-driven
learning rate, the momentum constant, the incremented global step, and — through
`tf.control_dependencies(update_ops)` (lines 224-226) — an explicit control
dependency on every pending batch-normalization statistics update. -/
structure TrainOp where
  control_deps : List ℕ
  learning_rate : ℚ
  momentum : ℚ
  next_global_step : ℕ
deriving DecidableEq

/-- The `tf.estimator.EstimatorSpec` returned by the model function: fields that
a mode does not produce are `none` (the PREDICT-mode spec at line 192 carries
only predictions). -/
structure EstimatorSpec where
  predictions : Predictions
  loss : Option ℚ
  train_op : Option TrainOp
  eval_metric_ops : Option ℚ
deriving DecidableEq

/-- External floating-point kernels of the model function: the softmax producing
the predicted probabilities (line 188) and the softmax cross entropy (line 195).
Their numeric output is opaque to every property verified here. -/
structure ModelKernels where
  softmax : List ℚ → List ℚ
  softmax_cross_entropy : List (List ℚ) → List (List ℚ) → ℚ

/-- Embedding of `cifar10_model_fn(features, labels, mode)` (lines 176-243).
`network` is the external residual-network module
(`resnet_model.cifar10_resnet_v2_generator`, line 180), called with a training
flag equal to `mode == TRAIN` (line 184); `trainable_variables` is the contents
of the trainable-variable collection and `update_ops` the contents of the
`UPDATE_OPS` collection (the pending batch-normalization statistics updates),
both populated by the external network module.  The reshape of `features` to
`[-1, HEIGHT, WIDTH, DEPTH]` (line 183) is the identity on a batch of
`[HEIGHT, WIDTH, DEPTH]` images.  PREDICT mode returns before labels, loss,
metrics or the train op are touched (lines 191-192); the loss adds the weight
decay over all trainable variables to the cross entropy (lines 203-204); the
train op exists in TRAIN mode only (lines 206-228). -/
def cifar10_model_fn (kernels : ModelKernels)
    (network : List CImage → Bool → List (List ℚ))
    (update_ops : List ℕ) (trainable_variables : List (List ℚ))
    (batch_size global_step : ℕ)
    (features : List CImage) (labels : List (List ℚ)) (mode : String) :
    EstimatorSpec :=
  let inputs := features
  let logits := network inputs (mode = ModeKeys.TRAIN)
  let predictions : Predictions :=
    { classes := logits.map argmaxIdx
      probabilities := logits.map kernels.softmax }
  if mode = ModeKeys.PREDICT then
    { predictions := predictions, loss := none, train_op := none,
      eval_metric_ops := none }
  else
    let cross_entropy := kernels.softmax_cross_entropy logits labels
    let loss := cross_entropy + _WEIGHT_DECAY * (trainable_variables.map l2_loss).sum
    let train_op : Option TrainOp :=
      if mode = ModeKeys.TRAIN then
        some { control_deps := update_ops
               learning_rate := learning_rate batch_size global_step
               momentum := _MOMENTUM
               next_global_step := global_step + 1 }
      else none
    let accuracy := accuracy_metric (labels.map argmaxIdx) predictions.classes
    { predictions := predictions, loss := some loss, train_op := train_op,
      eval_metric_ops := some accuracy }

/-! ### Execution order of graph operations

Graph operations are identified by numeric ids; a run is the sequence of
operation completions.  A run is valid when every declared dependency of an
operation has completed strictly before it. -/

/-- `validRun deps run`: every dependency of each operation in `run` appears
strictly earlier in `run`. -/
abbrev validRun (deps : ℕ → List ℕ) (run : List ℕ) : Prop :=
  ∀ i : Fin run.length, ∀ d ∈ deps (run.get i), d ∈ run.take i.val

inductive DriverEvent where
  | training (steps : ℕ) : DriverEvent
  | evalAndPrint : DriverEvent
deriving DecidableEq, Repr

/-- Embedding of the loop in `main` (lines 253-273): the trace of driver events,
one `training steps_per_eval` followed by one `evalAndPrint` per cycle of
`range(train_steps // steps_per_eval)`. -/
def driver_trace (train_steps steps_per_eval : ℕ) : List DriverEvent :=
  (List.range (train_steps / steps_per_eval)).flatMap
    (fun _ => [DriverEvent.training steps_per_eval, DriverEvent.evalAndPrint])

/-! ## Verification -/

theorem flatMap_const_eq_flatten_replicate {α : Type} (n : ℕ) (l : List α) :
    (List.range n).flatMap (fun _ => l) = (List.replicate n l).flatten := by
  induction n with
  | zero => simp
  | succ k ih => rw [List.range_succ, List.replicate_succ']; simp [ih]

/-- C5: the driver loops for exactly `train_steps / steps_per_eval` cycles, each
cycle exactly one bounded training run of `steps_per_eval` steps followed by one
full evaluation pass whose result is printed; in particular `train_steps = 300`
with `steps_per_eval = 100` executes exactly 3 Training/Evaluating pairs, no
more, no fewer. -/
theorem driver_cycle_count (train_steps steps_per_eval : ℕ)
    (_hspe : 0 < steps_per_eval) :
    driver_trace train_steps steps_per_eval =
      (List.replicate (train_steps / steps_per_eval)
        [DriverEvent.training steps_per_eval, DriverEvent.evalAndPrint]).flatten ∧
    driver_trace 300 100 =
      [DriverEvent.training 100, DriverEvent.evalAndPrint,
        DriverEvent.training 100, DriverEvent.evalAndPrint,
        DriverEvent.training 100, DriverEvent.evalAndPrint] :=
  ⟨flatMap_const_eq_flatten_replicate _ _, rfl⟩

theorem driver_cycle_count_witness :
    (0 < 100) ∧
    (driver_trace 300 100 =
      (List.replicate (300 / 100)
        [DriverEvent.training 100, DriverEvent.evalAndPrint]).flatten ∧
    driver_trace 300 100 =
      [DriverEvent.training 100, DriverEvent.evalAndPrint,
        DriverEvent.training 100, DriverEvent.evalAndPrint,
        DriverEvent.training 100, DriverEvent.evalAndPrint]) :=
  ⟨by decide, driver_cycle_count 300 100 (by decide)⟩

/-- C9: `filenames` fails with `ConfigurationError` when the expected data
directory does not exist — for every mode, before any pipeline construction
(`input_fn` propagates the failure before building anything); when the directory
exists, TRAIN returns all 5 training-shard paths in fixed numeric order 1..5 and
EVAL returns exactly one path. -/
theorem filenames_contract (data_dir : String) (dirExists : String → Bool) :
    (∀ mode, dirExists (data_dir ++ "/cifar-10-batches-bin") = false →
      filenames mode data_dir dirExists =
        Except.error PipelineError.ConfigurationError) ∧
    (dirExists (data_dir ++ "/cifar-10-batches-bin") = true →
      filenames ModeKeys.TRAIN data_dir dirExists =
        Except.ok
          [data_dir ++ "/cifar-10-batches-bin" ++ "/data_batch_1.bin",
            data_dir ++ "/cifar-10-batches-bin" ++ "/data_batch_2.bin",
            data_dir ++ "/cifar-10-batches-bin" ++ "/data_batch_3.bin",
            data_dir ++ "/cifar-10-batches-bin" ++ "/data_batch_4.bin",
            data_dir ++ "/cifar-10-batches-bin" ++ "/data_batch_5.bin"] ∧
      filenames ModeKeys.EVAL data_dir dirExists =
        Except.ok [data_dir ++ "/cifar-10-batches-bin" ++ "/test_batch.bin"]) ∧
    (∀ mode batch_size (env : Env) sqrtK repeatK cropFlipK shuffleK,
      env.dirExists (data_dir ++ "/cifar-10-batches-bin") = false →
      env.fileBytes = env.fileBytes →
      input_fn mode batch_size data_dir env sqrtK repeatK cropFlipK shuffleK =
        Except.error PipelineError.ConfigurationError) := by
  refine ⟨?_, ?_, ?_⟩
  · intro mode h
    simp [filenames, h]
  · intro h
    constructor
    · simp only [filenames, h, if_true, NUM_DATA_BATCHES, List.range_succ,
        List.range_zero, List.map_append, List.map_cons, List.map_nil,
        List.nil_append, List.cons_append, String.append_assoc]
      rfl
    · simp only [filenames, h, if_true]
      rfl
  · intro mode batch_size env sqrtK repeatK cropFlipK shuffleK h _
    simp only [input_fn, filenames, h, Bool.false_eq_true, if_false]
    rfl

theorem filenames_contract_witness :
    (filenames ModeKeys.TRAIN "" (fun _ => true) =
      Except.ok
        ["" ++ "/cifar-10-batches-bin" ++ "/data_batch_1.bin",
          "" ++ "/cifar-10-batches-bin" ++ "/data_batch_2.bin",
          "" ++ "/cifar-10-batches-bin" ++ "/data_batch_3.bin",
          "" ++ "/cifar-10-batches-bin" ++ "/data_batch_4.bin",
          "" ++ "/cifar-10-batches-bin" ++ "/data_batch_5.bin"]) ∧
    (filenames ModeKeys.EVAL "" (fun _ => true) =
      Except.ok ["" ++ "/cifar-10-batches-bin" ++ "/test_batch.bin"]) ∧
    (filenames ModeKeys.PREDICT "" (fun _ => false) =
      Except.error PipelineError.ConfigurationError) :=
  ⟨((filenames_contract "" (fun _ => true)).2.1 rfl).1,
    ((filenames_contract "" (fun _ => true)).2.1 rfl).2,
    (filenames_contract "" (fun _ => false)).1 ModeKeys.PREDICT rfl⟩

/-- C10: when the data directory exists, `filenames` raises `ValueError` for
every mode other than TRAIN and EVAL — including PREDICT, even though the model
function supports prediction. -/
theorem filenames_invalid_mode (mode data_dir : String) (dirExists : String → Bool)
    (hdir : dirExists (data_dir ++ "/cifar-10-batches-bin") = true)
    (ht : mode ≠ ModeKeys.TRAIN) (he : mode ≠ ModeKeys.EVAL) :
    filenames mode data_dir dirExists = Except.error PipelineError.ValueError := by
  simp [filenames, hdir, ht, he]

theorem filenames_invalid_mode_witness :
    ModeKeys.PREDICT ≠ ModeKeys.TRAIN ∧ ModeKeys.PREDICT ≠ ModeKeys.EVAL ∧
    filenames ModeKeys.PREDICT "" (fun _ => true) =
      Except.error PipelineError.ValueError :=
  ⟨by decide, by decide,
    filenames_invalid_mode ModeKeys.PREDICT "" (fun _ => true) rfl
      (by decide) (by decide)⟩

/-- C7: in PREDICT mode the model function returns only predictions — class
indices `argmax(logits)` and probabilities `softmax(logits)`, with the network
invoked with a training flag of `false` — and no loss, no metrics and no train
step; the returned spec is independent of the label input, so PREDICT mode never
touches label data. -/
theorem predict_mode_returns_only_predictions (kernels : ModelKernels)
    (network : List CImage → Bool → List (List ℚ)) (update_ops : List ℕ)
    (trainable_variables : List (List ℚ)) (batch_size global_step : ℕ)
    (features : List CImage) (labels : List (List ℚ)) :
    (cifar10_model_fn kernels network update_ops trainable_variables batch_size
        global_step features labels ModeKeys.PREDICT).loss = none ∧
    (cifar10_model_fn kernels network update_ops trainable_variables batch_size
        global_step features labels ModeKeys.PREDICT).train_op = none ∧
    (cifar10_model_fn kernels network update_ops trainable_variables batch_size
        global_step features labels ModeKeys.PREDICT).eval_metric_ops = none ∧
    (cifar10_model_fn kernels network update_ops trainable_variables batch_size
        global_step features labels ModeKeys.PREDICT).predictions =
      { classes := (network features false).map argmaxIdx
        probabilities := (network features false).map kernels.softmax } ∧
    (∀ labels2, cifar10_model_fn kernels network update_ops trainable_variables
        batch_size global_step features labels2 ModeKeys.PREDICT =
      cifar10_model_fn kernels network update_ops trainable_variables batch_size
        global_step features labels ModeKeys.PREDICT) :=
  ⟨rfl, rfl, rfl, rfl, fun _ => rfl⟩

/-- C3: in TRAIN mode the train op is built under
`tf.control_dependencies(update_ops)`, so its control dependencies are exactly
the pending normalization-statistics updates; consequently in every valid
execution order (one where each operation runs only after all of its declared
dependencies) every update op completes strictly before the train step — the
updates are an ordered dependency, never a fire-and-forget side effect. -/
theorem train_op_waits_for_update_ops (kernels : ModelKernels)
    (network : List CImage → Bool → List (List ℚ)) (update_ops : List ℕ)
    (trainable_variables : List (List ℚ)) (batch_size global_step : ℕ)
    (features : List CImage) (labels : List (List ℚ))
    (deps : ℕ → List ℕ) (train_id : ℕ) (run : List ℕ) (t : TrainOp)
    (hop : (cifar10_model_fn kernels network update_ops trainable_variables
        batch_size global_step features labels ModeKeys.TRAIN).train_op = some t)
    (hwired : deps train_id = t.control_deps)
    (hvalid : validRun deps run) (i : Fin run.length)
    (hi : run.get i = train_id) :
    t.control_deps = update_ops ∧ ∀ u ∈ update_ops, u ∈ run.take i.val := by
  have hdef : (cifar10_model_fn kernels network update_ops trainable_variables
      batch_size global_step features labels ModeKeys.TRAIN).train_op =
      some { control_deps := update_ops
             learning_rate := learning_rate batch_size global_step
             momentum := _MOMENTUM
             next_global_step := global_step + 1 } := rfl
  have ht : t.control_deps = update_ops := by
    have h := Option.some.inj ((hdef.symm.trans hop))
    rw [← h]
  refine ⟨ht, ?_⟩
  intro u hu
  have h2 := hvalid i
  rw [hi, hwired, ht] at h2
  exact h2 u hu

theorem train_op_waits_for_update_ops_witness :
    (TrainOp.mk [7, 8] (learning_rate 128 0) _MOMENTUM 1).control_deps = [7, 8] ∧
    ∀ u ∈ ([7, 8] : List ℕ), u ∈ ([7, 8, 9] : List ℕ).take 2 :=
  train_op_waits_for_update_ops ⟨id, fun _ _ => 0⟩ (fun _ _ => []) [7, 8] [] 128 0
    [] [] (fun n => if n = 9 then [7, 8] else []) 9 [7, 8, 9]
    (TrainOp.mk [7, 8] (learning_rate 128 0) _MOMENTUM 1)
    rfl rfl (by decide) ⟨2, by decide⟩ rfl

theorem sum_map_l2_loss_eq_half_sum_sq (tvars : List (List ℚ)) :
    (tvars.map l2_loss).sum =
      (tvars.map (fun v => (v.map (fun x => x ^ 2)).sum)).sum / 2 := by
  induction tvars with
  | nil => simp
  | cons v vs ih => simp [l2_loss, ih, add_div]

/-- C2 (amended): in TRAIN and EVAL modes the returned loss equals the cross
entropy plus the fixed weight-decay coefficient `2e-4` times the sum of
`tf.nn.l2_loss` over every trainable parameter (normalization scale/bias
included); since `tf.nn.l2_loss(p)` is HALF the squared L2 norm of `p`, this is
cross entropy plus `1e-4` — not `2e-4` — times the sum of squared L2 norms. -/
theorem loss_is_cross_entropy_plus_weight_decay (kernels : ModelKernels)
    (network : List CImage → Bool → List (List ℚ)) (update_ops : List ℕ)
    (trainable_variables : List (List ℚ)) (batch_size global_step : ℕ)
    (features : List CImage) (labels : List (List ℚ)) (mode : String)
    (h : mode = ModeKeys.TRAIN ∨ mode = ModeKeys.EVAL) :
    (cifar10_model_fn kernels network update_ops trainable_variables batch_size
        global_step features labels mode).loss =
      some (kernels.softmax_cross_entropy
          (network features (mode = ModeKeys.TRAIN)) labels
        + _WEIGHT_DECAY * (trainable_variables.map l2_loss).sum) ∧
    _WEIGHT_DECAY * (trainable_variables.map l2_loss).sum =
      1/10000 *
        (trainable_variables.map (fun v => (v.map (fun x => x ^ 2)).sum)).sum := by
  constructor
  · rcases h with h | h <;> subst h <;> rfl
  · rw [sum_map_l2_loss_eq_half_sum_sq]
    unfold _WEIGHT_DECAY
    ring

theorem loss_is_cross_entropy_plus_weight_decay_witness :
    (cifar10_model_fn ⟨id, fun _ _ => 0⟩ (fun _ _ => []) [] [[1]] 128 0 [] []
        ModeKeys.EVAL).loss =
      some ((fun (_ : List (List ℚ)) (_ : List (List ℚ)) => (0 : ℚ))
          ((fun (_ : List CImage) (_ : Bool) => ([] : List (List ℚ))) []
            (ModeKeys.EVAL = ModeKeys.TRAIN)) []
        + _WEIGHT_DECAY * (([[1]] : List (List ℚ)).map l2_loss).sum) ∧
    _WEIGHT_DECAY * (([[1]] : List (List ℚ)).map l2_loss).sum =
      1/10000 *
        (([[1]] : List (List ℚ)).map (fun v => (v.map (fun x => x ^ 2)).sum)).sum :=
  loss_is_cross_entropy_plus_weight_decay ⟨id, fun _ _ => 0⟩ (fun _ _ => []) []
    [[1]] 128 0 [] [] ModeKeys.EVAL (Or.inr rfl)

/-- C2 counterexample: with one trainable parameter `[1]` (squared L2 norm 1)
and a cross-entropy kernel returning 0, the model function's loss is `1e-4`,
whereas the claim `loss = cross_entropy + 2e-4 * sum of squared L2 norms`
predicts `2e-4`: the code halves the squared norm through `tf.nn.l2_loss`. -/
theorem loss_weight_decay_claim_counterexample :
    (cifar10_model_fn ⟨id, fun _ _ => 0⟩ (fun _ _ => []) [] [[1]] 128 0 [] []
        ModeKeys.EVAL).loss = some (1/10000) ∧
    (([[1]] : List (List ℚ)).map (fun v => (v.map (fun x => x ^ 2)).sum)).sum = 1 ∧
    (1/10000 : ℚ) ≠ 0 + _WEIGHT_DECAY * 1 := by
  have h1 : (cifar10_model_fn ⟨id, fun _ _ => 0⟩ (fun _ _ => []) [] [[1]] 128 0
      [] [] ModeKeys.EVAL).loss =
      some ((0 : ℚ) + _WEIGHT_DECAY * (([[1]] : List (List ℚ)).map l2_loss).sum) :=
    rfl
  refine ⟨?_, by norm_num, by norm_num [_WEIGHT_DECAY]⟩
  rw [h1]
  norm_num [l2_loss, _WEIGHT_DECAY]

theorem int32_cast_of_lt (n : ℕ) (h : n < 2 ^ 31) : int32_cast n = n := by
  unfold int32_cast
  have h32 : n % 2 ^ 32 = n := Nat.mod_eq_of_lt (by omega)
  rw [h32, if_pos (by omega)]

theorem bpe_nonneg (bs : ℕ) : 0 ≤ _BATCHES_PER_EPOCH bs := by
  unfold _BATCHES_PER_EPOCH
  positivity

theorem boundary_mono (bs : ℕ) {e1 e2 : ℕ} (h : e1 ≤ e2) :
    ⌊_BATCHES_PER_EPOCH bs * e1⌋ ≤ ⌊_BATCHES_PER_EPOCH bs * e2⌋ :=
  Int.floor_le_floor
    (mul_le_mul_of_nonneg_left (by exact_mod_cast h) (bpe_nonneg bs))

theorem boundary_le (bs : ℕ) (hbs : 0 < bs) (e : ℕ) :
    ⌊_BATCHES_PER_EPOCH bs * e⌋ ≤ 50000 * e := by
  have h1 : _BATCHES_PER_EPOCH bs * e ≤ ((50000 * e : ℕ) : ℚ) := by
    push_cast
    have hb : _BATCHES_PER_EPOCH bs ≤ 50000 := by
      unfold _BATCHES_PER_EPOCH NUM_EXAMPLES_PER_EPOCH_FOR_TRAIN NUM_DATA_BATCHES
      push_cast
      rw [div_le_iff₀ (by exact_mod_cast hbs : (0:ℚ) < bs)]
      nlinarith [show (1:ℚ) ≤ bs from by exact_mod_cast hbs]
    nlinarith [bpe_nonneg bs, Nat.cast_nonneg (α := ℚ) e]
  calc ⌊_BATCHES_PER_EPOCH bs * e⌋ ≤ ⌊((50000 * e : ℕ) : ℚ)⌋ := Int.floor_le_floor h1
    _ = 50000 * e := by rw [Int.floor_natCast]; push_cast; ring

theorem initial_lr_nonneg (bs : ℕ) : 0 ≤ _INITIAL_LEARNING_RATE bs := by
  unfold _INITIAL_LEARNING_RATE
  positivity

theorem learning_rate_eq (bs step : ℕ) (h : step < 2 ^ 31) :
    learning_rate bs step =
      if (step : ℤ) ≤ ⌊_BATCHES_PER_EPOCH bs * 100⌋ then
        _INITIAL_LEARNING_RATE bs * 1
      else if (step : ℤ) ≤ ⌊_BATCHES_PER_EPOCH bs * 150⌋ then
        _INITIAL_LEARNING_RATE bs * (1/10)
      else if (step : ℤ) ≤ ⌊_BATCHES_PER_EPOCH bs * 200⌋ then
        _INITIAL_LEARNING_RATE bs * (1/100)
      else _INITIAL_LEARNING_RATE bs * (1/1000) := by
  unfold learning_rate lr_boundaries lr_values
  rw [int32_cast_of_lt step h]
  norm_num [piecewise_constant]

/-- C1 (amended): for a fixed positive batch size (train-set size 50000,
`batches_per_epoch = 50000 / batch_size`, breakpoints
`int(batches_per_epoch * e)` for epochs e ∈ {100, 150, 200}) the schedule is a
pure function of the global step: it equals `base_rate = 0.1 * batch_size / 128`
for every step before the first breakpoint, is successively multiplied by 0.1,
0.01, 0.001 after each subsequent breakpoint, and is non-increasing in the step
— for all steps below `2^31`.  The bound is forced by the int32 cast of the
global step in the source: at step `2^31` the cast wraps and the schedule
returns to the base rate (see the counterexample). -/
theorem learning_rate_schedule_amended (batch_size step step2 : ℕ)
    (hbs : 0 < batch_size) :
    ((step : ℤ) < ⌊_BATCHES_PER_EPOCH batch_size * 100⌋ →
      learning_rate batch_size step = _INITIAL_LEARNING_RATE batch_size) ∧
    (⌊_BATCHES_PER_EPOCH batch_size * 100⌋ < (step : ℤ) →
      (step : ℤ) ≤ ⌊_BATCHES_PER_EPOCH batch_size * 150⌋ →
      learning_rate batch_size step =
        _INITIAL_LEARNING_RATE batch_size * (1/10)) ∧
    (⌊_BATCHES_PER_EPOCH batch_size * 150⌋ < (step : ℤ) →
      (step : ℤ) ≤ ⌊_BATCHES_PER_EPOCH batch_size * 200⌋ →
      learning_rate batch_size step =
        _INITIAL_LEARNING_RATE batch_size * (1/100)) ∧
    (⌊_BATCHES_PER_EPOCH batch_size * 200⌋ < (step : ℤ) → step < 2 ^ 31 →
      learning_rate batch_size step =
        _INITIAL_LEARNING_RATE batch_size * (1/1000)) ∧
    (step ≤ step2 → step2 < 2 ^ 31 →
      learning_rate batch_size step2 ≤ learning_rate batch_size step) := by
  have hB0 := boundary_le batch_size hbs 100
  have hB1 := boundary_le batch_size hbs 150
  have hB2 := boundary_le batch_size hbs 200
  norm_num at hB0 hB1 hB2
  have h01 := boundary_mono batch_size (show (100:ℕ) ≤ 150 by norm_num)
  have h12 := boundary_mono batch_size (show (150:ℕ) ≤ 200 by norm_num)
  norm_num at h01 h12
  have hlr := initial_lr_nonneg batch_size
  refine ⟨?_, ?_, ?_, ?_, ?_⟩
  · intro h
    have hs : (step : ℤ) < 5000000 := lt_of_lt_of_le h hB0
    have hstep : step < 2 ^ 31 := by omega
    rw [learning_rate_eq batch_size step hstep, if_pos (le_of_lt h), mul_one]
  · intro h1 h2
    have hs : (step : ℤ) ≤ 7500000 := le_trans h2 hB1
    have hstep : step < 2 ^ 31 := by omega
    rw [learning_rate_eq batch_size step hstep, if_neg (not_le.mpr h1), if_pos h2]
  · intro h1 h2
    have hs : (step : ℤ) ≤ 10000000 := le_trans h2 hB2
    have hstep : step < 2 ^ 31 := by omega
    rw [learning_rate_eq batch_size step hstep,
      if_neg (not_le.mpr (lt_of_le_of_lt h01 h1)), if_neg (not_le.mpr h1),
      if_pos h2]
  · intro h1 hstep
    rw [learning_rate_eq batch_size step hstep,
      if_neg (not_le.mpr (lt_of_le_of_lt (le_trans h01 h12) h1)),
      if_neg (not_le.mpr (lt_of_le_of_lt h12 h1)), if_neg (not_le.mpr h1)]
  · intro hle h2
    have h1 : step < 2 ^ 31 := lt_of_le_of_lt hle h2
    have hc : (step : ℤ) ≤ (step2 : ℤ) := by exact_mod_cast hle
    have v01 : _INITIAL_LEARNING_RATE batch_size * (1/10) ≤
        _INITIAL_LEARNING_RATE batch_size * 1 := by nlinarith
    have v12 : _INITIAL_LEARNING_RATE batch_size * (1/100) ≤
        _INITIAL_LEARNING_RATE batch_size * (1/10) := by nlinarith
    have v23 : _INITIAL_LEARNING_RATE batch_size * (1/1000) ≤
        _INITIAL_LEARNING_RATE batch_size * (1/100) := by nlinarith
    rw [learning_rate_eq batch_size step h1, learning_rate_eq batch_size step2 h2]
    split_ifs <;> linarith [v01, v12, v23]

/-- C1 counterexample: at batch size 128 the breakpoints are 39062, 58593 and
78125, so the claimed rate at any step past the last breakpoint is `1e-4`; but
at step `2^31` the int32 cast of the global step wraps to `-2^31` and the
schedule returns the base rate `0.1` again, so the schedule is not
non-increasing over all steps. -/
theorem learning_rate_schedule_counterexample :
    learning_rate 128 78126 = 1/10000 ∧
    learning_rate 128 (2 ^ 31) = 1/10 ∧
    (78126 : ℕ) ≤ 2 ^ 31 ∧
    ¬ (learning_rate 128 (2 ^ 31) ≤ learning_rate 128 78126) := by
  have e1 : learning_rate 128 78126 = 1/10000 := by
    rw [learning_rate_eq 128 78126 (by norm_num)]
    norm_num [_BATCHES_PER_EPOCH, _INITIAL_LEARNING_RATE,
      NUM_EXAMPLES_PER_EPOCH_FOR_TRAIN, NUM_DATA_BATCHES]
  have e2 : learning_rate 128 (2 ^ 31) = 1/10 := by
    unfold learning_rate lr_boundaries lr_values int32_cast
    norm_num [piecewise_constant, _BATCHES_PER_EPOCH, _INITIAL_LEARNING_RATE,
      NUM_EXAMPLES_PER_EPOCH_FOR_TRAIN, NUM_DATA_BATCHES]
  exact ⟨e1, e2, by norm_num, by rw [e1, e2]; norm_num⟩

theorem learning_rate_schedule_witness :
    learning_rate 128 100 = _INITIAL_LEARNING_RATE 128 ∧
    learning_rate 128 2000000 = _INITIAL_LEARNING_RATE 128 * (1/1000) ∧
    learning_rate 128 40000 ≤ learning_rate 128 100 :=
  ⟨(learning_rate_schedule_amended 128 100 100 (by norm_num)).1 (by norm_num
      [_BATCHES_PER_EPOCH, NUM_EXAMPLES_PER_EPOCH_FOR_TRAIN, NUM_DATA_BATCHES]),
    (learning_rate_schedule_amended 128 2000000 100 (by norm_num)).2.2.2.1
      (by norm_num [_BATCHES_PER_EPOCH, NUM_EXAMPLES_PER_EPOCH_FOR_TRAIN,
        NUM_DATA_BATCHES]) (by norm_num),
    (learning_rate_schedule_amended 128 100 40000 (by norm_num)).2.2.2.2
      (by norm_num) (by norm_num)⟩

theorem chunkList_flatten {α : Type} (n : ℕ) (l : List α) :
    0 < n → (chunkList n l).flatten = l := by
  induction l using chunkList.induct (n := n) with
  | case1 => simp [chunkList]
  | case2 x xs h => intro hn; omega
  | case3 x xs h ih =>
    intro hn
    rw [chunkList]
    simp only [dif_neg h, List.flatten_cons, ih hn, List.take_append_drop]

theorem chunkList_spec {α : Type} (n : ℕ) (l : List α) :
    0 < n → n ∣ l.length →
      (∀ c ∈ chunkList n l, c.length = n) ∧
      (chunkList n l).length * n = l.length := by
  induction l using chunkList.induct (n := n) with
  | case1 => simp [chunkList]
  | case2 x xs h => intro hn; omega
  | case3 x xs h ih =>
    intro hn hdvd
    rw [chunkList]
    simp only [dif_neg h]
    have hlc : (x :: xs).length = xs.length + 1 := by simp
    have hle : n ≤ xs.length + 1 := by
      refine Nat.le_of_dvd (by omega) ?_
      rw [← hlc]; exact hdvd
    have hdvd2 : n ∣ (List.drop n (x :: xs)).length := by
      simp only [List.length_drop, hlc]
      exact (Nat.dvd_sub' (hlc ▸ hdvd) dvd_rfl)
    obtain ⟨ih1, ih2⟩ := ih hn hdvd2
    constructor
    · intro c hc
      rcases List.mem_cons.mp hc with rfl | hc2
      · simp; omega
      · exact ih1 c hc2
    · rw [List.length_cons, add_mul, one_mul, ih2]
      simp only [List.length_drop]
      omega

theorem chunkList_mem {α : Type} (n : ℕ) (l : List α) :
    0 < n → ∀ c ∈ chunkList n l, c.length ≤ n ∧ c ≠ [] := by
  induction l using chunkList.induct (n := n) with
  | case1 => simp [chunkList]
  | case2 x xs h => intro hn; omega
  | case3 x xs h ih =>
    intro hn c hc
    rw [chunkList] at hc
    simp only [dif_neg h] at hc
    rcases List.mem_cons.mp hc with rfl | hc2
    · refine ⟨by simp, ?_⟩
      cases n with
      | zero => omega
      | succ m => simp
    · exact ih hn c hc2

/-- C6: splitting a file into records fails with `FormatError` whenever the byte
stream is not an exact multiple of `label_bytes + H*W*C = 1 + 3072 = 3073`
bytes — a wrong-length trailing record is never silently skipped — and on
success every yielded record is exactly 3073 bytes and the records together
account for every byte of the file, so the epoch size is exactly
`file.length / 3073`. -/
theorem record_length_mismatch_fails (file : List ℕ) :
    (¬ ((HEIGHT * WIDTH * DEPTH + 1) ∣ file.length) →
      record_dataset [file] = Except.error PipelineError.FormatError) ∧
    (∀ rs, record_dataset [file] = Except.ok rs →
      (∀ r ∈ rs, r.length = HEIGHT * WIDTH * DEPTH + 1) ∧
      rs.length * (HEIGHT * WIDTH * DEPTH + 1) = file.length) := by
  constructor
  · intro h
    have hmod : ¬ file.length % (HEIGHT * WIDTH * DEPTH + 1) = 0 := by
      simpa [Nat.dvd_iff_mod_eq_zero] using h
    simp [record_dataset, parse_fixed_length_records, hmod, Bind.bind, Except.bind]
  · intro rs hrs
    by_cases hmod : file.length % (HEIGHT * WIDTH * DEPTH + 1) = 0
    · have hok : record_dataset [file] =
          Except.ok (chunkList (HEIGHT * WIDTH * DEPTH + 1) file) := by
        simp only [record_dataset, parse_fixed_length_records, hmod, if_pos]
        show Except.ok (chunkList (HEIGHT * WIDTH * DEPTH + 1) file ++ []) = _
        rw [List.append_nil]
      rw [hok] at hrs
      obtain rfl : chunkList (HEIGHT * WIDTH * DEPTH + 1) file = rs :=
        Except.ok.inj hrs
      exact chunkList_spec _ file (by norm_num [HEIGHT, WIDTH, DEPTH])
        (Nat.dvd_of_mod_eq_zero hmod)
    · have herr : record_dataset [file] = Except.error PipelineError.FormatError := by
        simp only [record_dataset, parse_fixed_length_records, hmod, if_false]
        rfl
      rw [herr] at hrs
      cases hrs

theorem record_length_mismatch_fails_witness :
    record_dataset [List.replicate 3072 0] = Except.error PipelineError.FormatError ∧
    (∀ r ∈ ([] : List (List ℕ)), r.length = HEIGHT * WIDTH * DEPTH + 1) ∧
    (0 * (HEIGHT * WIDTH * DEPTH + 1) = 0) :=
  ⟨(record_length_mismatch_fails (List.replicate 3072 0)).1
      (by norm_num [HEIGHT, WIDTH, DEPTH, Nat.dvd_iff_mod_eq_zero]),
    by
      have h := (record_length_mismatch_fails []).2 []
        (by simp [record_dataset, parse_fixed_length_records, chunkList,
          Bind.bind, Except.bind, pure, Except.pure])
      exact ⟨h.1, h.2⟩⟩

/-- C8: building the evaluation batch pipeline twice from the same eval file
yields identical results — the two builds are equal for arbitrary (even
different) instantiations of the training-only randomized kernels, since
evaluation applies no repetition, no augmentation and no shuffling; moreover any
successful build is a single finite ordered pass: the concatenation of its
batches is exactly the decode-and-standardize image of the eval file's records
in file order, in batches of at most `batch_size` (all nonempty). -/
theorem eval_pipeline_idempotent (batch_size : ℕ) (data_dir : String) (env : Env)
    (sqrtK : ℚ → ℚ)
    (repeatK1 repeatK2 : List (List ℕ) → List (List ℕ))
    (cropFlipK1 cropFlipK2 : CImage → CImage)
    (shuffleK1 shuffleK2 : List Sample → List Sample)
    (hbs : 0 < batch_size) :
    input_fn ModeKeys.EVAL batch_size data_dir env sqrtK repeatK1 cropFlipK1
        shuffleK1 =
      input_fn ModeKeys.EVAL batch_size data_dir env sqrtK repeatK2 cropFlipK2
        shuffleK2 ∧
    (∀ batches,
      input_fn ModeKeys.EVAL batch_size data_dir env sqrtK repeatK1 cropFlipK1
          shuffleK1 = Except.ok batches →
      ∃ records,
        record_dataset [env.fileBytes
            (data_dir ++ "/cifar-10-batches-bin" ++ "/test_batch.bin")] =
          Except.ok records ∧
        batches.flatten = records.map (fun v =>
          { image := per_image_standardization sqrtK (datasetParser v).image
            label := (datasetParser v).label }) ∧
        (∀ b ∈ batches, b.length ≤ batch_size ∧ b ≠ [])) := by
  refine ⟨rfl, ?_⟩
  intro batches hb
  by_cases hdir : env.dirExists (data_dir ++ "/cifar-10-batches-bin") = true
  · have hpaths : filenames ModeKeys.EVAL data_dir env.dirExists =
        Except.ok [data_dir ++ "/cifar-10-batches-bin" ++ "/test_batch.bin"] := by
      simp [filenames, hdir, ModeKeys.EVAL, ModeKeys.TRAIN]
    cases hrec : record_dataset [env.fileBytes
        (data_dir ++ "/cifar-10-batches-bin" ++ "/test_batch.bin")] with
    | error e =>
      have herr : input_fn ModeKeys.EVAL batch_size data_dir env sqrtK repeatK1
          cropFlipK1 shuffleK1 = Except.error e := by
        simp only [input_fn, hpaths, List.map_cons, List.map_nil, hrec,
          Bind.bind, Except.bind]
      rw [herr] at hb
      cases hb
    | ok records =>
      have hok : input_fn ModeKeys.EVAL batch_size data_dir env sqrtK repeatK1
          cropFlipK1 shuffleK1 =
          Except.ok (chunkList batch_size (records.map (fun v =>
            { image := per_image_standardization sqrtK (datasetParser v).image
              label := (datasetParser v).label }))) := by
        simp only [ModeKeys.EVAL] at hpaths
        simp only [input_fn, ModeKeys.EVAL, ModeKeys.TRAIN, String.reduceEq,
          if_false, Bind.bind, Except.bind, hpaths, List.map_cons, List.map_nil,
          hrec, List.map_map]
        rfl
      rw [hok] at hb
      obtain rfl := Except.ok.inj hb
      exact ⟨records, rfl, chunkList_flatten batch_size _ hbs,
        fun b hbmem => chunkList_mem batch_size _ hbs b hbmem⟩
  · have hdirf : env.dirExists (data_dir ++ "/cifar-10-batches-bin") = false := by
      simpa using hdir
    have herr : input_fn ModeKeys.EVAL batch_size data_dir env sqrtK repeatK1
        cropFlipK1 shuffleK1 = Except.error PipelineError.ConfigurationError := by
      simp only [input_fn, filenames, hdirf, Bool.false_eq_true, if_false]
      rfl
    rw [herr] at hb
    cases hb

theorem eval_pipeline_idempotent_witness :
    (input_fn ModeKeys.EVAL 1 "" ⟨fun _ => true, fun _ => []⟩ id
        (fun _ => []) id id =
      input_fn ModeKeys.EVAL 1 "" ⟨fun _ => true, fun _ => []⟩ id
        id id (fun _ => [])) ∧
    (∀ batches,
      input_fn ModeKeys.EVAL 1 "" ⟨fun _ => true, fun _ => []⟩ id
          (fun _ => []) id id = Except.ok batches →
      ∃ records,
        record_dataset [(⟨fun _ => true, fun _ => []⟩ : Env).fileBytes
            ("" ++ "/cifar-10-batches-bin" ++ "/test_batch.bin")] =
          Except.ok records ∧
        batches.flatten = records.map (fun v =>
          { image := per_image_standardization id (datasetParser v).image
            label := (datasetParser v).label }) ∧
        (∀ b ∈ batches, b.length ≤ 1 ∧ b ≠ [])) :=
  eval_pipeline_idempotent 1 "" ⟨fun _ => true, fun _ => []⟩ id
    (fun _ => []) id id id id (fun _ => []) (by norm_num)

/-- C4 counterexample: the records `10 :: 0^3072` and `11 :: 0^3072` are two
distinct valid 3073-byte records that decode to exactly the same
`(image, one_hot_label)` pair — `tf.one_hot(label, 10)` maps any label byte
`≥ NUM_CLASSES` to the all-zero vector — so decode is not a bijection on valid
records, and such synthetic records do not round-trip their label. -/
theorem dataset_parser_not_injective :
    (10 :: List.replicate 3072 0 : List ℕ).length = 3073 ∧
    (11 :: List.replicate 3072 0 : List ℕ).length = 3073 ∧
    (10 :: List.replicate 3072 0 : List ℕ) ≠ 11 :: List.replicate 3072 0 ∧
    datasetParser (10 :: List.replicate 3072 0) =
      datasetParser (11 :: List.replicate 3072 0) := by
  refine ⟨by rw [List.length_cons, List.length_replicate],
    by rw [List.length_cons, List.length_replicate],
    by simp only [ne_eq, List.cons.injEq, not_and]; intro h; omega, ?_⟩
  simp only [datasetParser]
  congr 1
  · funext h w c
    rw [Nat.add_comm 1 _, List.getD_cons_succ, List.getD_cons_succ]
  · funext k
    have hk : k.val < 10 := k.isLt
    rw [List.getD_cons_zero, List.getD_cons_zero,
      if_neg (by omega), if_neg (by omega)]

/-- C4 (amended): decode returns the one-hot encoding (length 10) of the first
byte as the label, and the remaining 3072 bytes reshaped from channel-major
`[3,32,32]` to pixel-major `[32,32,3]` and cast to float as the image; on
records whose label byte is below `NUM_CLASSES` decode is a bijection — a
synthetically encoded record decodes to the exact pixel values and label used to
construct it, and two valid in-range records with equal decodings are equal.
(Records with label byte `≥ NUM_CLASSES` one-hot to the zero vector and
collapse; see the counterexample.) -/
theorem dataset_parser_roundtrip_and_injective :
    (∀ (label : ℕ) (pixels : ℕ → ℕ → ℕ → ℕ) (hl : label < NUM_CLASSES),
      (datasetParser (encode_record label pixels)).image =
        (fun h w c => ((pixels c.val h.val w.val : ℕ) : ℚ)) ∧
      (datasetParser (encode_record label pixels)).label ⟨label, hl⟩ = 1 ∧
      (∀ k : Fin NUM_CLASSES, k.val ≠ label →
        (datasetParser (encode_record label pixels)).label k = 0)) ∧
    (∀ r1 r2 : List ℕ, r1.length = 3073 → r2.length = 3073 →
      r1.getD 0 0 < NUM_CLASSES → r2.getD 0 0 < NUM_CLASSES →
      datasetParser r1 = datasetParser r2 → r1 = r2) := by
  constructor
  · intro label pixels hl
    refine ⟨?_, ?_, ?_⟩
    · funext h w c
      have hh : h.val < 32 := h.isLt
      have hw : w.val < 32 := w.isLt
      have hc : c.val < 3 := c.isLt
      simp only [datasetParser, encode_record, HEIGHT, WIDTH, DEPTH]
      rw [Nat.add_comm 1 _, List.getD_cons_succ]
      have hX : c.val * (32 * 32) + h.val * 32 + w.val < 3 * (32 * 32) := by
        omega
      rw [List.getD_eq_getElem _ 0 (by simpa using hX)]
      simp only [List.getElem_map, List.getElem_range]
      have e1 : (c.val * (32 * 32) + h.val * 32 + w.val) / (32 * 32) = c.val := by
        omega
      have e2 : (c.val * (32 * 32) + h.val * 32 + w.val) % (32 * 32) / 32 =
          h.val := by omega
      have e3 : (c.val * (32 * 32) + h.val * 32 + w.val) % 32 = w.val := by omega
      rw [e1, e2, e3]
    · simp [datasetParser, encode_record]
    · intro k hk
      simp only [datasetParser, encode_record, List.getD_cons_zero]
      rw [if_neg (fun hh => hk hh.symm)]
  · intro r1 r2 h1 h2 hl1 hl2 heq
    have himg := congrArg Sample.image heq
    have hlab := congrArg Sample.label heq
    have hbyte0 : r2.getD 0 0 = r1.getD 0 0 := by
      have hfun := congrFun hlab ⟨r1.getD 0 0, hl1⟩
      simp only [datasetParser, if_true, eq_self_iff_true] at hfun
      by_contra hne
      rw [if_neg hne] at hfun
      exact one_ne_zero hfun
    apply List.ext_getElem (by rw [h1, h2])
    intro i hi1 hi2
    rcases i with _ | j
    · rw [← List.getD_eq_getElem r1 0 hi1, ← List.getD_eq_getElem r2 0 hi2,
        hbyte0]
    · have hj : j < 3072 := by rw [h1] at hi1; omega
      have hfin := congrFun (congrFun (congrFun himg
        ⟨j % 1024 / 32, by simp only [HEIGHT]; omega⟩)
        ⟨j % 32, by simp only [WIDTH]; omega⟩)
        ⟨j / 1024, by simp only [DEPTH]; omega⟩
      simp only [datasetParser, HEIGHT, WIDTH, DEPTH] at hfin
      have hidx : 1 + (j / 1024 * (32 * 32) + j % 1024 / 32 * 32 + j % 32) =
          j + 1 := by omega
      rw [hidx] at hfin
      have hbytes : r1.getD (j + 1) 0 = r2.getD (j + 1) 0 := Nat.cast_inj.mp hfin
      rw [← List.getD_eq_getElem r1 0 hi1, ← List.getD_eq_getElem r2 0 hi2,
        hbytes]

theorem dataset_parser_roundtrip_witness :
    ((datasetParser (encode_record 3 (fun _ _ _ => 7))).image =
      (fun _ _ _ => ((7 : ℕ) : ℚ)) ∧
    (datasetParser (encode_record 3 (fun _ _ _ => 7))).label
        ⟨3, by norm_num [NUM_CLASSES]⟩ = 1 ∧
    (∀ k : Fin NUM_CLASSES, k.val ≠ 3 →
      (datasetParser (encode_record 3 (fun _ _ _ => 7))).label k = 0)) ∧
    ([5] : List ℕ) ++ List.replicate 3072 2 = [5] ++ List.replicate 3072 2 :=
  ⟨(dataset_parser_roundtrip_and_injective.1 3 (fun _ _ _ => 7)
      (by norm_num [NUM_CLASSES])),
    dataset_parser_roundtrip_and_injective.2
      ([5] ++ List.replicate 3072 2) ([5] ++ List.replicate 3072 2)
      (by rw [List.length_append, List.length_replicate, List.length_singleton])
      (by rw [List.length_append, List.length_replicate, List.length_singleton])
      (by norm_num [NUM_CLASSES]) (by norm_num [NUM_CLASSES]) rfl⟩

end Cifar10
